import Mathlib

/-!
Verification of the hand-written orchestration layer of the abby-node SDK
(file src/index.ts): per-instance client construction, authentication
header injection, the timeout-aware fetch wrapper, the request/response
interceptor pair and the typed event emitter.

Conventions of the embedding:
* Machine time (Date.now) is an explicit Int parameter.
* The platform Headers object is a list of name/value pairs; Headers.set
  is case-insensitive and replaces any existing entry for the name.
* The platform JSON.parse outcome is an explicit value of type
  Except Unit Json: Except.ok j when the body parses to j, Except.error
  when parsing throws.
* A listener callback is a function into Except String Unit; an
  Except.error result models the callback throwing.
-/

namespace AbbyNode

/-- Json values, the possible results of a successful platform JSON.parse. -/
inductive Json where
  | null : Json
  | bool (b : Bool) : Json
  | num (n : Int) : Json
  | str (s : String) : Json
  | arr (xs : List Json) : Json
  | obj (fields : List (String × Json)) : Json

/-- Header lists model the platform Headers object. -/
abbrev HeaderList := List (String × String)

/-- Lowercase a header name characterwise; this is the platform
case-insensitive name comparison (String.toLower maps Char.toLower). -/
def lowerName (s : String) : List Char := s.data.map Char.toLower

/-- Header names compare case-insensitively (platform Headers semantics). -/
def headerNameEq (a b : String) : Bool := lowerName a == lowerName b

/-- Headers.set: remove any entry whose name matches case-insensitively,
then append the new entry. -/
def headersSet (h : HeaderList) (name value : String) : HeaderList :=
  (h.filter fun p => !(headerNameEq p.1 name)) ++ [(name, value)]

/-- Headers.get: the value of the first entry whose name matches
case-insensitively, if any. -/
def headersGet (h : HeaderList) (name : String) : Option String :=
  (h.find? fun p => headerNameEq p.1 name).map fun p => p.2

/-- Constructor options (src/index.ts AbbyConfig): all fields optional. -/
structure AbbyConfig where
  baseUrl : Option String := none
  timeout : Option Nat := none
  headers : Option HeaderList := none

/-- Configuration after merging with DEFAULT_CONFIG
(baseUrl https://api.app-abby.com, timeout 30000). -/
structure ResolvedConfig where
  baseUrl : String
  timeout : Nat
  headers : Option HeaderList

/-- The spread of DEFAULT_CONFIG with the caller's config
(this.config in the constructor). -/
def resolveConfig (c : AbbyConfig) : ResolvedConfig :=
  { baseUrl := c.baseUrl.getD "https://api.app-abby.com"
    timeout := c.timeout.getD 30000
    headers := c.headers }

/-- A fetch Request: id models the object identity used as WeakMap key. -/
structure RequestModel where
  id : Nat
  method : String
  url : String
  headers : HeaderList

/-- The requestStartTimes WeakMap, keyed by request identity. -/
abbrev TimingMap := List (Nat × Int)

def timingSet (m : TimingMap) (k : Nat) (t : Int) : TimingMap :=
  (m.filter fun p => !(p.1 == k)) ++ [(k, t)]

def timingGet (m : TimingMap) (k : Nat) : Option Int :=
  (m.find? fun p => p.1 == k).map fun p => p.2

def timingDelete (m : TimingMap) (k : Nat) : TimingMap :=
  m.filter fun p => !(p.1 == k)

/-- The request interceptor registered in initializeClient: record the
start time, set the Authorization bearer header, then every configured
extra header, then the SDK identification headers. -/
def requestInterceptor (apiKey : String) (configHeaders : Option HeaderList)
    (version : String) (now : Int) (times : TimingMap) (req : RequestModel) :
    TimingMap × RequestModel :=
  let times1 := timingSet times req.id now
  let h1 := headersSet req.headers "Authorization" ("Bearer " ++ apiKey)
  let h2 := match configHeaders with
    | none => h1
    | some hs => hs.foldl (fun acc p => headersSet acc p.1 p.2) h1
  let h3 := headersSet h2 "X-Abby-Client" "abby-node"
  let h4 := headersSet h3 "X-Abby-Client-Version" version
  (times1, { req with headers := h4 })

/-- A fetch Response as observed by the response interceptor. jsonBody
is the outcome of the platform clone().json() call. -/
structure ResponseModel where
  status : Nat
  statusText : String
  url : String
  headers : HeaderList
  jsonBody : Except Unit Json

/-- The platform Response.ok flag: status in the range 200 to 299. -/
def responseOk (status : Nat) : Bool := decide (200 ≤ status ∧ status ≤ 299)

/-- The AbbyResponseEvent payload. -/
structure ResponseEvent where
  status : Nat
  url : String
  method : String
  duration : Int
  ok : Bool

/-- The AbbyErrorEvent payload. -/
structure ErrorEvent where
  status : Nat
  statusText : String
  url : String
  method : String
  duration : Int
  message : Option String
  body : Option Json
  requestId : Option String

/-- An emitted event, tagged by kind. -/
inductive AbbyEvent where
  | response (e : ResponseEvent)
  | error (e : ErrorEvent)

def AbbyEvent.isResponse : AbbyEvent → Bool
  | .response _ => true
  | .error _ => false

def AbbyEvent.isError : AbbyEvent → Bool
  | .response _ => false
  | .error _ => true

def AbbyEvent.status : AbbyEvent → Nat
  | .response e => e.status
  | .error e => e.status

def AbbyEvent.duration : AbbyEvent → Int
  | .response e => e.duration
  | .error e => e.duration

def jsonLookup (fields : List (String × Json)) (k : String) : Option Json :=
  (fields.find? fun p => p.1 == k).map fun p => p.2

/-- Error-message extraction from a parsed body (src/index.ts lines
375-383): only an object body is inspected; a string-valued message
field wins, else a string-valued error field, else nothing. -/
def extractMessage (body : Json) : Option String :=
  match body with
  | .obj fields =>
    match jsonLookup fields "message" with
    | some (.str s) => some s
    | _ =>
      match jsonLookup fields "error" with
      | some (.str s) => some s
      | _ => none
  | _ => none

/-- The method reported in events: request?.method with a GET fallback;
the JS or-operator also maps an empty method string to GET. -/
def interceptMethod (request : Option RequestModel) : String :=
  match request with
  | some r => if r.method = "" then "GET" else r.method
  | none => "GET"

/-- The reported duration: JS reads `startTime ? now - startTime : 0`,
so a recorded start time of 0 is treated as absent (0 is falsy). -/
def interceptDuration (now : Int) (times : TimingMap)
    (request : Option RequestModel) : Int :=
  match request with
  | some r =>
    match timingGet times r.id with
    | some t => if t ≠ 0 then now - t else 0
    | none => 0
  | none => 0

/-- Result of the response interceptor: the timing map after cleanup, the
events emitted in order, and the value returned to the caller. -/
structure InterceptResult where
  times : TimingMap
  events : List AbbyEvent
  returned : ResponseModel

/-- The response interceptor registered in initializeClient (src/index.ts
lines 346-401): compute the duration, delete the timing record, always
emit a response event, and emit an error event when the status is not ok,
recovering an optional message from the parsed body. -/
def responseInterceptor (now : Int) (times : TimingMap)
    (resp : ResponseModel) (request : Option RequestModel) : InterceptResult :=
  let duration := interceptDuration now times request
  let times1 := match request with
    | some r => timingDelete times r.id
    | none => times
  let method := interceptMethod request
  let ok := responseOk resp.status
  let respEvent : ResponseEvent :=
    { status := resp.status, url := resp.url, method := method
      duration := duration, ok := ok }
  let events := if ok then [AbbyEvent.response respEvent] else
    let bodyOpt : Option Json := match resp.jsonBody with
      | .ok j => some j
      | .error _ => none
    let message : Option String := match resp.jsonBody with
      | .ok j => extractMessage j
      | .error _ => none
    [AbbyEvent.response respEvent,
     AbbyEvent.error
       { status := resp.status, statusText := resp.statusText
         url := resp.url, method := method, duration := duration
         message := message, body := bodyOpt
         requestId := headersGet resp.headers "x-request-id" }]
  { times := times1, events := events, returned := resp }

/-- A registered listener: id models the function reference identity JS
Sets deduplicate on; run models the callback body, which may throw. -/
structure ListenerEntry where
  id : Nat
  run : AbbyEvent → Except String Unit

/-- The loop body of Abby.emit: invoke each listener inside try/catch,
swallowing its exception, and record the invocation. -/
def emitGo (e : AbbyEvent) : List ListenerEntry → List Nat → Except String (List Nat)
  | [], acc => Except.ok acc
  | l :: ls, acc =>
    match l.run e with
    | Except.ok _ => emitGo e ls (acc ++ [l.id])
    | Except.error _ => emitGo e ls (acc ++ [l.id])

/-- Abby.emit on one listener set: returns the ids invoked, in order; an
Except.error result would model an exception escaping to the caller. -/
def emit (ls : List ListenerEntry) (e : AbbyEvent) : Except String (List Nat) :=
  emitGo e ls []

/-- The per-instance eventListeners record: one Set per event kind. -/
structure EventListeners where
  error : List ListenerEntry
  response : List ListenerEntry

inductive EventKind where
  | error
  | response

/-- Abby.on: JS Set.add ignores an already-present member. -/
def listenersAdd (ls : List ListenerEntry) (l : ListenerEntry) : List ListenerEntry :=
  if ls.any fun m => m.id == l.id then ls else ls ++ [l]

/-- Abby.off: JS Set.delete removes the member when present. -/
def listenersDelete (ls : List ListenerEntry) (l : ListenerEntry) : List ListenerEntry :=
  ls.filter fun m => !(m.id == l.id)

def abbyOn (s : EventListeners) (k : EventKind) (l : ListenerEntry) : EventListeners :=
  match k with
  | .error => { s with error := listenersAdd s.error l }
  | .response => { s with response := listenersAdd s.response l }

def abbyOff (s : EventListeners) (k : EventKind) (l : ListenerEntry) : EventListeners :=
  match k with
  | .error => { s with error := listenersDelete s.error l }
  | .response => { s with response := listenersDelete s.response l }

/-- Route an event to the listener set of its kind, as this.emit does. -/
def dispatchEvent (s : EventListeners) (e : AbbyEvent) : Except String (List Nat) :=
  match e with
  | .response _ => emit s.response e
  | .error _ => emit s.error e

/-- Emit a list of events in order, concatenating the invocation logs. -/
def emitAll (s : EventListeners) : List AbbyEvent → Except String (List Nat)
  | [] => Except.ok []
  | e :: rest =>
    match dispatchEvent s e with
    | Except.ok l1 =>
      match emitAll s rest with
      | Except.ok l2 => Except.ok (l1 ++ l2)
      | Except.error err => Except.error err
    | Except.error err => Except.error err

/-- The response interceptor together with event delivery: an
Except.error result would model the interceptor throwing instead of
returning the response to the caller. -/
def responseInterceptorEmit (now : Int) (times : TimingMap)
    (resp : ResponseModel) (request : Option RequestModel)
    (s : EventListeners) : Except String (TimingMap × List Nat × ResponseModel) :=
  let r := responseInterceptor now times resp request
  match emitAll s r.events with
  | Except.ok log => Except.ok (r.times, log, r.returned)
  | Except.error err => Except.error err

/-- Data determining the one request interceptor closure registered by
initializeClient: the captured api key, config headers and version. -/
structure ReqInterceptorSpec where
  apiKey : String
  configHeaders : Option HeaderList
  version : String

/-- Modelled from the spec: the generated createClient (src/client, not
part of the hand-written sources) returns a fresh client owning its own
interceptor chains, initially empty; interceptors.request.use and
interceptors.response.use each append one interceptor. -/
structure ClientModel where
  requestInterceptors : List ReqInterceptorSpec
  responseInterceptors : List Unit

def createClient : ClientModel :=
  { requestInterceptors := [], responseInterceptors := [] }

/-- Abby.initializeClient: registers exactly one request and one response
interceptor on this instance's client. -/
def initializeClient (apiKey : String) (cfg : ResolvedConfig)
    (version : String) (c : ClientModel) : ClientModel :=
  { requestInterceptors := c.requestInterceptors ++ [⟨apiKey, cfg.headers, version⟩]
    responseInterceptors := c.responseInterceptors ++ [()] }

/-- One constructed Abby instance. -/
structure AbbyInstance where
  apiKey : String
  config : ResolvedConfig
  instanceClient : ClientModel

def apiKeyErrorMessage : String :=
  "Abby API key is required. Get your API key from https://app.abby.fr/settings/api"

/-- The Abby constructor: rejects a falsy apiKey (absent or empty), then
resolves the configuration, creates a fresh client and initializes it.
version stands for the build-time injected SDK version constant. -/
def mkAbby (apiKey : Option String) (config : AbbyConfig)
    (version : String) : Except String AbbyInstance :=
  match apiKey with
  | none => Except.error apiKeyErrorMessage
  | some k =>
    if k = "" then Except.error apiKeyErrorMessage
    else
      let rc := resolveConfig config
      Except.ok { apiKey := k, config := rc
                  instanceClient := initializeClient k rc version createClient }

def applyReqInterceptor (spec : ReqInterceptorSpec) (now : Int)
    (st : TimingMap × RequestModel) : TimingMap × RequestModel :=
  requestInterceptor spec.apiKey spec.configHeaders spec.version now st.1 st.2

/-- Dispatching a request through an instance runs every request
interceptor registered on that instance's own client, in order. -/
def dispatch (inst : AbbyInstance) (now : Int) (times : TimingMap)
    (req : RequestModel) : TimingMap × RequestModel :=
  inst.instanceClient.requestInterceptors.foldl
    (fun st spec => applyReqInterceptor spec now st) (times, req)

/-- The caller-supplied cancellation signal of one call: either already
aborted when the call starts, or firing at a given time, or never. -/
structure CallerSignal where
  alreadyAborted : Bool
  abortAt : Option Nat

/-- Behaviour of the underlying transport on one call, absent any abort:
it either resolves at a time or never resolves on its own. The platform
fetch contract makes it reject once the signal it observes aborts. -/
inductive TransportBehavior where
  | resolvesAt (t : Nat)
  | neverResolves

/-- The time at which the internal controller's signal aborts, from
fetchWithTimeout: the timer aborts at timeoutMs; an already-aborted
caller signal aborts immediately; otherwise a caller abort is propagated
by the registered listener when it fires, and the earlier trigger wins. -/
def controllerAbortTime (timeoutMs : Nat) (signal : Option CallerSignal) : Nat :=
  match signal with
  | none => timeoutMs
  | some s =>
    if s.alreadyAborted then 0
    else
      match s.abortAt with
      | some a => min a timeoutMs
      | none => timeoutMs

/-- controller.abort() is called with no argument at all three call
sites, so every abort carries the platform default reason. -/
def abortDefaultReason : String := "AbortError"

/-- Observable outcome of one fetchWithTimeout call. -/
inductive FetchOutcome where
  | ok (t : Nat)
  | abortError (t : Nat) (reason : String)

/-- fetchWithTimeout on one call: the transport resolves normally only
when it settles strictly before the controller signal aborts; otherwise
the call fails at the abort time with the abort error the transport
produces on seeing the aborted signal. -/
def runFetchWithTimeout (timeoutMs : Nat) (signal : Option CallerSignal)
    (tb : TransportBehavior) : FetchOutcome :=
  let abortAt := controllerAbortTime timeoutMs signal
  match tb with
  | .resolvesAt t =>
    if t < abortAt then .ok t else .abortError abortAt abortDefaultReason
  | .neverResolves => .abortError abortAt abortDefaultReason

/-- Whether the controller signal observed by the transport reports
aborted at the time the call settles. -/
def observedAborted (timeoutMs : Nat) (signal : Option CallerSignal)
    (tb : TransportBehavior) : Bool :=
  match runFetchWithTimeout timeoutMs signal tb with
  | .ok _ => false
  | .abortError _ _ => true

/-- The time at which the call settles (the finally clause then clears
the timer). -/
def settleTime (timeoutMs : Nat) (signal : Option CallerSignal)
    (tb : TransportBehavior) : Nat :=
  match runFetchWithTimeout timeoutMs signal tb with
  | .ok t => t
  | .abortError t _ => t

/-- Whether the timeout timer ever fires: it is cleared at settle time by
the finally clause, so it fires only when due no later than the settle
time. -/
def timerFires (timeoutMs : Nat) (signal : Option CallerSignal)
    (tb : TransportBehavior) : Bool :=
  decide (timeoutMs ≤ settleTime timeoutMs signal tb)

/-- The kind of a failed outcome: the abort reason, or none on success.
Nothing else distinguishes failure causes. -/
def errorKind : FetchOutcome → Option String
  | .ok _ => none
  | .abortError _ r => some r

theorem headerNameEq_iff (a b : String) :
    headerNameEq a b = true ↔ lowerName a = lowerName b := by
  simp [headerNameEq]

theorem headerNameEq_false_iff (a b : String) :
    headerNameEq a b = false ↔ lowerName a ≠ lowerName b := by
  simp [headerNameEq]

theorem timingGet_set (m : TimingMap) (k : Nat) (t : Int) :
    timingGet (timingSet m k t) k = some t := by
  induction m with
  | nil => simp [timingSet, timingGet]
  | cons a rest ih =>
    by_cases h : a.1 = k
    · simp [timingSet, timingGet, h]
    · simp [timingSet, timingGet, h]

theorem timingGet_delete (m : TimingMap) (k : Nat) :
    timingGet (timingDelete m k) k = none := by
  induction m with
  | nil => simp [timingDelete, timingGet]
  | cons a rest ih =>
    by_cases h : a.1 = k
    · simp [timingDelete, timingGet, h]
    · simp [timingDelete, timingGet, h]

theorem headersGet_set (h : HeaderList) (n v m : String) :
    headersGet (headersSet h n v) m =
      if headerNameEq n m then some v else headersGet h m := by
  induction h with
  | nil =>
    by_cases hnm : headerNameEq n m <;> simp [headersSet, headersGet, hnm]
  | cons a t ih =>
    by_cases han : headerNameEq a.1 n
    · have han' : lowerName a.1 = lowerName n := (headerNameEq_iff _ _).1 han
      by_cases hnm : headerNameEq n m
      · simpa [headersSet, headersGet, han, hnm] using ih
      · have hnm' : lowerName n ≠ lowerName m := (headerNameEq_false_iff _ _).1 (by simpa using hnm)
        have ham : headerNameEq a.1 m = false := by
          rw [headerNameEq_false_iff, han']; exact hnm'
        have := ih
        simp [headersSet, headersGet, han, hnm, ham] at this ⊢
        exact this
    · by_cases ham : headerNameEq a.1 m
      · have ham' : lowerName a.1 = lowerName m := (headerNameEq_iff _ _).1 ham
        have han' : lowerName a.1 ≠ lowerName n := (headerNameEq_false_iff _ _).1 (by simpa using han)
        have hnm : headerNameEq n m = false := by
          rw [headerNameEq_false_iff]
          intro hnmeq
          exact han' (by rw [ham', hnmeq])
        simp [headersSet, headersGet, han, ham, hnm]
      · by_cases hnm : headerNameEq n m
        · simpa [headersSet, headersGet, han, ham, hnm] using ih
        · simpa [headersSet, headersGet, han, ham, hnm] using ih

theorem headersGet_foldl_skip (l : HeaderList) (m : String)
    (hl : ∀ p ∈ l, headerNameEq p.1 m = false) :
    ∀ x : HeaderList,
      headersGet (l.foldl (fun acc p => headersSet acc p.1 p.2) x) m =
        headersGet x m := by
  induction l with
  | nil => intro x; rfl
  | cons a t ih =>
    intro x
    have ha : headerNameEq a.1 m = false := hl a (by simp)
    have ht : ∀ p ∈ t, headerNameEq p.1 m = false := fun p hp => hl p (by simp [hp])
    rw [List.foldl_cons, ih ht, headersGet_set, ha]
    simp

/-- C9: constructing the client with an absent or empty apiKey fails
immediately with the configuration error, and for every non-empty apiKey
construction succeeds without this error. -/
theorem construction_precondition (config : AbbyConfig) (version : String) :
    mkAbby none config version = Except.error apiKeyErrorMessage ∧
    mkAbby (some "") config version = Except.error apiKeyErrorMessage ∧
    ∀ k : String, k ≠ "" →
      mkAbby (some k) config version =
        Except.ok { apiKey := k, config := resolveConfig config
                    instanceClient :=
                      initializeClient k (resolveConfig config) version createClient } := by
  refine ⟨rfl, by simp [mkAbby], fun k hk => ?_⟩
  simp [mkAbby, hk]

/-- Witness for C9 at the concrete inputs apiKey abc, empty config. -/
theorem construction_precondition_witness :
    mkAbby (some "abc") {} "1.0.0" =
      Except.ok { apiKey := "abc", config := resolveConfig {}
                  instanceClient :=
                    initializeClient "abc" (resolveConfig {}) "1.0.0" createClient } :=
  (construction_precondition {} "1.0.0").2.2 "abc" (by decide)

/-- C2: the fetch wrapper races every call against an abort signal fired
after the configured timeout, 30000 ms by default; an already-aborted
caller signal aborts immediately; a caller abort firing before the
timeout wins the race; a call whose transport never resolves fails at
the timeout with the transport observing an aborted signal; a call
completing strictly before the timeout resolves normally and the cleared
timer never fires afterward. -/
theorem fetch_timeout_race (timeoutMs : Nat) :
    (resolveConfig {}).timeout = 30000 ∧
    (∀ s : CallerSignal, s.alreadyAborted = true →
      ∀ tb, runFetchWithTimeout timeoutMs (some s) tb =
        FetchOutcome.abortError 0 abortDefaultReason) ∧
    (∀ s : CallerSignal, ∀ a : Nat, s.alreadyAborted = false → s.abortAt = some a →
      a < timeoutMs →
      runFetchWithTimeout timeoutMs (some s) TransportBehavior.neverResolves =
        FetchOutcome.abortError a abortDefaultReason ∧
      timerFires timeoutMs (some s) TransportBehavior.neverResolves = false) ∧
    (runFetchWithTimeout timeoutMs none TransportBehavior.neverResolves =
        FetchOutcome.abortError timeoutMs abortDefaultReason ∧
      observedAborted timeoutMs none TransportBehavior.neverResolves = true) ∧
    (∀ t : Nat, t < timeoutMs →
      runFetchWithTimeout timeoutMs none (TransportBehavior.resolvesAt t) =
        FetchOutcome.ok t ∧
      observedAborted timeoutMs none (TransportBehavior.resolvesAt t) = false ∧
      timerFires timeoutMs none (TransportBehavior.resolvesAt t) = false) := by
  refine ⟨rfl, ?_, ?_, ⟨rfl, rfl⟩, ?_⟩
  · intro s hs tb
    cases tb <;> simp [runFetchWithTimeout, controllerAbortTime, hs]
  · intro s a hs ha hlt
    constructor
    · simp [runFetchWithTimeout, controllerAbortTime, hs, ha,
        Nat.min_eq_left (Nat.le_of_lt hlt)]
    · simp [timerFires, settleTime, runFetchWithTimeout, controllerAbortTime, hs, ha,
        Nat.min_eq_left (Nat.le_of_lt hlt)]
      omega
  · intro t ht
    refine ⟨?_, ?_, ?_⟩
    · simp [runFetchWithTimeout, controllerAbortTime, ht]
    · simp [observedAborted, runFetchWithTimeout, controllerAbortTime, ht]
    · simp [timerFires, settleTime, runFetchWithTimeout, controllerAbortTime, ht]

/-- Witness for C2 at timeout 30000 with concrete signals and transports. -/
theorem fetch_timeout_race_witness :
    runFetchWithTimeout 30000 (some ⟨true, none⟩) TransportBehavior.neverResolves =
      FetchOutcome.abortError 0 abortDefaultReason ∧
    runFetchWithTimeout 30000 (some ⟨false, some 100⟩) TransportBehavior.neverResolves =
      FetchOutcome.abortError 100 abortDefaultReason ∧
    runFetchWithTimeout 30000 none TransportBehavior.neverResolves =
      FetchOutcome.abortError 30000 abortDefaultReason ∧
    runFetchWithTimeout 30000 none (TransportBehavior.resolvesAt 5) = FetchOutcome.ok 5 ∧
    timerFires 30000 none (TransportBehavior.resolvesAt 5) = false := by
  have h := fetch_timeout_race 30000
  exact ⟨h.2.1 ⟨true, none⟩ rfl _,
    (h.2.2.1 ⟨false, some 100⟩ 100 rfl rfl (by decide)).1,
    h.2.2.2.1.1, (h.2.2.2.2 5 (by decide)).1, (h.2.2.2.2 5 (by decide)).2.2⟩

/-- C6: when the timeout elapses first the call fails with the same kind
of abort error as a caller-initiated cancellation, carrying no
timeout-specific metadata: the two failure runs have equal error kinds. -/
theorem timeout_indistinguishability
    (timeoutA timeoutB : Nat) (sB : CallerSignal) (tbB : TransportBehavior)
    (hB : sB.alreadyAborted = true) :
    errorKind (runFetchWithTimeout timeoutA none TransportBehavior.neverResolves) =
      some abortDefaultReason ∧
    errorKind (runFetchWithTimeout timeoutB (some sB) tbB) = some abortDefaultReason ∧
    errorKind (runFetchWithTimeout timeoutA none TransportBehavior.neverResolves) =
      errorKind (runFetchWithTimeout timeoutB (some sB) tbB) := by
  have h2 : errorKind (runFetchWithTimeout timeoutB (some sB) tbB) =
      some abortDefaultReason := by
    cases tbB <;> simp [errorKind, runFetchWithTimeout, controllerAbortTime, hB]
  have h1 : errorKind (runFetchWithTimeout timeoutA none TransportBehavior.neverResolves) =
      some abortDefaultReason := by
    simp [errorKind, runFetchWithTimeout, controllerAbortTime]
  exact ⟨h1, h2, by rw [h1, h2]⟩

/-- Witness for C6: a timed-out run against an immediately cancelled run. -/
theorem timeout_indistinguishability_witness :
    errorKind (runFetchWithTimeout 30000 none TransportBehavior.neverResolves) =
      errorKind (runFetchWithTimeout 30000 (some ⟨true, none⟩)
        (TransportBehavior.resolvesAt 7)) :=
  (timeout_indistinguishability 30000 30000 ⟨true, none⟩
    (TransportBehavior.resolvesAt 7) rfl).2.2

theorem emitGo_eq (e : AbbyEvent) (ls : List ListenerEntry) :
    ∀ acc : List Nat, emitGo e ls acc = Except.ok (acc ++ ls.map ListenerEntry.id) := by
  induction ls with
  | nil => intro acc; simp [emitGo]
  | cons l t ih =>
    intro acc
    cases h : l.run e <;> simp [emitGo, h, ih]

theorem emit_eq (ls : List ListenerEntry) (e : AbbyEvent) :
    emit ls e = Except.ok (ls.map ListenerEntry.id) := by
  simpa using emitGo_eq e ls []

theorem emitAll_ok (s : EventListeners) (evs : List AbbyEvent) :
    ∃ log, emitAll s evs = Except.ok log := by
  induction evs with
  | nil => exact ⟨[], rfl⟩
  | cons ev rest ih =>
    obtain ⟨log2, h2⟩ := ih
    have h1 : ∃ l1, dispatchEvent s ev = Except.ok l1 := by
      cases ev <;> exact ⟨_, emit_eq _ _⟩
    obtain ⟨l1, h1⟩ := h1
    exact ⟨l1 ++ log2, by simp [emitAll, h1, h2]⟩

/-- Normal form of the events emitted by the response interceptor. -/
theorem responseInterceptor_events (now : Int) (times : TimingMap)
    (resp : ResponseModel) (request : Option RequestModel) :
    (responseInterceptor now times resp request).events =
      if responseOk resp.status then
        [AbbyEvent.response ⟨resp.status, resp.url, interceptMethod request,
          interceptDuration now times request, responseOk resp.status⟩]
      else
        [AbbyEvent.response ⟨resp.status, resp.url, interceptMethod request,
          interceptDuration now times request, responseOk resp.status⟩,
         AbbyEvent.error ⟨resp.status, resp.statusText, resp.url, interceptMethod request,
           interceptDuration now times request,
           (match resp.jsonBody with | .ok j => extractMessage j | .error _ => none),
           (match resp.jsonBody with | .ok j => some j | .error _ => none),
           headersGet resp.headers "x-request-id"⟩] := by
  by_cases h : responseOk resp.status <;> simp [responseInterceptor, h]

/-- C5: for every emitted event and every set of registered listeners, an
exception thrown by one listener neither stops the remaining listeners
(emit invokes exactly the full listener list, in order, whatever each
callback does) nor escapes to the caller (emit and the full interceptor
return ok), and the response is still returned to the original caller. -/
theorem listener_exception_containment (ls : List ListenerEntry) (e : AbbyEvent)
    (now : Int) (times : TimingMap) (resp : ResponseModel)
    (request : Option RequestModel) (s : EventListeners) :
    emit ls e = Except.ok (ls.map ListenerEntry.id) ∧
    ∃ log, responseInterceptorEmit now times resp request s =
      Except.ok ((responseInterceptor now times resp request).times, log, resp) := by
  refine ⟨emit_eq ls e, ?_⟩
  obtain ⟨log, h⟩ := emitAll_ok s (responseInterceptor now times resp request).events
  have hret : (responseInterceptor now times resp request).returned = resp := rfl
  exact ⟨log, by simp [responseInterceptorEmit, h, hret]⟩

/-- C3: the response interceptor emits exactly one response event, whose
fields are the status, url, method, duration and ok flag, with ok true
exactly when the status lies in 200 to 299; a non-2xx status additionally
yields exactly one error event with the matching status; a 2xx status
yields no error event. -/
theorem event_classification (now : Int) (times : TimingMap)
    (resp : ResponseModel) (request : Option RequestModel) :
    ((responseInterceptor now times resp request).events.countP AbbyEvent.isResponse) = 1 ∧
    (∀ ev ∈ (responseInterceptor now times resp request).events, ev.isResponse = true →
      ev = AbbyEvent.response ⟨resp.status, resp.url, interceptMethod request,
        interceptDuration now times request, responseOk resp.status⟩) ∧
    responseOk resp.status = decide (200 ≤ resp.status ∧ resp.status ≤ 299) ∧
    (responseOk resp.status = true →
      ((responseInterceptor now times resp request).events.countP AbbyEvent.isError) = 0) ∧
    (responseOk resp.status = false →
      ((responseInterceptor now times resp request).events.countP AbbyEvent.isError) = 1 ∧
      ∀ ev ∈ (responseInterceptor now times resp request).events,
        AbbyEvent.status ev = resp.status) := by
  refine ⟨?_, ?_, rfl, ?_, ?_⟩ <;> by_cases h : responseOk resp.status <;>
    simp [responseInterceptor_events, h, AbbyEvent.isResponse, AbbyEvent.isError,
      AbbyEvent.status, List.countP_cons]

/-- Witness for C3 at a concrete 404 response and a concrete 200 response. -/
theorem event_classification_witness :
    ((responseInterceptor 0 [] ⟨404, "Not Found", "u", [], Except.error ()⟩ none).events.countP
      AbbyEvent.isError) = 1 ∧
    ((responseInterceptor 0 [] ⟨200, "OK", "u", [], Except.error ()⟩ none).events.countP
      AbbyEvent.isError) = 0 :=
  ⟨((event_classification 0 [] ⟨404, "Not Found", "u", [], Except.error ()⟩ none).2.2.2.2
      (by decide)).1,
    (event_classification 0 [] ⟨200, "OK", "u", [], Except.error ()⟩ none).2.2.2.1 (by decide)⟩

/-- The message field of an error event, skipping response events. -/
def errMessageOf : AbbyEvent → Option (Option String)
  | .error ee => some ee.message
  | .response _ => none

/-- C4: for every non-2xx response the single error event's message is
read from the parsed JSON body: a string-valued message field wins, else
a string-valued error field; a body that fails to parse leaves the
message absent; and the extraction never prevents the response from
being returned to the caller. -/
theorem error_message_recovery (now : Int) (times : TimingMap)
    (resp : ResponseModel) (request : Option RequestModel)
    (hok : responseOk resp.status = false) :
    (responseInterceptor now times resp request).returned = resp ∧
    (∀ fields m, resp.jsonBody = Except.ok (Json.obj fields) →
      jsonLookup fields "message" = some (Json.str m) →
      (responseInterceptor now times resp request).events.filterMap errMessageOf =
        [some m]) ∧
    (∀ fields s, resp.jsonBody = Except.ok (Json.obj fields) →
      (∀ m, jsonLookup fields "message" ≠ some (Json.str m)) →
      jsonLookup fields "error" = some (Json.str s) →
      (responseInterceptor now times resp request).events.filterMap errMessageOf =
        [some s]) ∧
    (resp.jsonBody = Except.error () →
      (responseInterceptor now times resp request).events.filterMap errMessageOf =
        [none]) := by
  refine ⟨rfl, ?_, ?_, ?_⟩
  · intro fields m hbody hmsg
    simp [responseInterceptor_events, hok, hbody, errMessageOf, extractMessage, hmsg]
  · intro fields s hbody hmsg herr
    have hextract : extractMessage (Json.obj fields) = some s := by
      unfold extractMessage
      cases hm : jsonLookup fields "message" with
      | none => simp [herr]
      | some j =>
        cases j with
        | str m => exact absurd hm (hmsg m)
        | null => simp [herr]
        | bool b => simp [herr]
        | num n => simp [herr]
        | arr xs => simp [herr]
        | obj fs => simp [herr]
    simp [responseInterceptor_events, hok, hbody, errMessageOf, hextract]
  · intro hbody
    simp [responseInterceptor_events, hok, hbody, errMessageOf]

/-- Witness for C4: the spec's mocked 404 whose body parses to an object
with message field not found yields exactly that error message. -/
theorem error_message_recovery_witness :
    (responseInterceptor 3 [] ⟨404, "Not Found", "https://api.app-abby.com/x", [],
        Except.ok (Json.obj [("message", Json.str "not found")])⟩ none).events.filterMap
      errMessageOf = [some "not found"] :=
  (error_message_recovery 3 [] ⟨404, "Not Found", "https://api.app-abby.com/x", [],
      Except.ok (Json.obj [("message", Json.str "not found")])⟩ none (by decide)).2.1
    [("message", Json.str "not found")] "not found" rfl rfl

/-- C7 counterexample: a request whose start time is recorded as 0 (a
falsy JS number) and whose response arrives at time 5 emits duration 0,
although now minus the recorded start time is 5. -/
theorem timing_zero_start_counterexample :
    timingGet (requestInterceptor "k" none "1.0.0" 0 [] ⟨1, "GET", "u", []⟩).1 1 = some 0 ∧
    (responseInterceptor 5 (requestInterceptor "k" none "1.0.0" 0 [] ⟨1, "GET", "u", []⟩).1
        ⟨500, "ERR", "u", [], Except.error ()⟩
        (some (requestInterceptor "k" none "1.0.0" 0 [] ⟨1, "GET", "u", []⟩).2)).events.map
      AbbyEvent.duration = [0, 0] ∧
    ((5 : Int) - 0 ≠ 0) := by
  refine ⟨by decide, by decide, by decide⟩

/-- C7 (amended): for every request a start-time record is created at
request-interceptor time; when the recorded start time is nonzero (JS
truthiness drops a 0 timestamp) every event emitted on response arrival
carries duration now minus the recorded start, and the record is deleted,
so the timing map no longer contains an entry for the request. -/
theorem timing_record_lifecycle (apiKey version : String)
    (configHeaders : Option HeaderList) (t now : Int) (times : TimingMap)
    (req : RequestModel) (resp : ResponseModel) (ht : t ≠ 0) :
    timingGet (requestInterceptor apiKey configHeaders version t times req).1 req.id =
      some t ∧
    (∀ ev ∈ (responseInterceptor now
        (requestInterceptor apiKey configHeaders version t times req).1 resp
        (some (requestInterceptor apiKey configHeaders version t times req).2)).events,
      AbbyEvent.duration ev = now - t) ∧
    timingGet (responseInterceptor now
        (requestInterceptor apiKey configHeaders version t times req).1 resp
        (some (requestInterceptor apiKey configHeaders version t times req).2)).times
      req.id = none := by
  have hid : (requestInterceptor apiKey configHeaders version t times req).2.id = req.id := rfl
  have hmap : (requestInterceptor apiKey configHeaders version t times req).1 =
      timingSet times req.id t := rfl
  have hget : timingGet (requestInterceptor apiKey configHeaders version t times req).1
      req.id = some t := by rw [hmap]; exact timingGet_set times req.id t
  refine ⟨hget, ?_, ?_⟩
  · have hdur : interceptDuration now
        (requestInterceptor apiKey configHeaders version t times req).1
        (some (requestInterceptor apiKey configHeaders version t times req).2) = now - t := by
      simp [interceptDuration, hid, hget, ht]
    intro ev hev
    rw [responseInterceptor_events] at hev
    by_cases h : responseOk resp.status
    · simp [h] at hev
      simp [hev, AbbyEvent.duration, hdur]
    · simp [h] at hev
      rcases hev with h1 | h1 <;> simp [h1, AbbyEvent.duration, hdur]
  · have : (responseInterceptor now
        (requestInterceptor apiKey configHeaders version t times req).1 resp
        (some (requestInterceptor apiKey configHeaders version t times req).2)).times =
        timingDelete (requestInterceptor apiKey configHeaders version t times req).1
          req.id := rfl
    rw [this, hmap]
    exact timingGet_delete _ _

/-- Witness for C7 (amended) at start time 10, response time 15. -/
theorem timing_record_lifecycle_witness :
    timingGet (requestInterceptor "k" none "1.0.0" 10 [] ⟨1, "GET", "u", []⟩).1 1 =
      some 10 ∧
    (∀ ev ∈ (responseInterceptor 15
        (requestInterceptor "k" none "1.0.0" 10 [] ⟨1, "GET", "u", []⟩).1
        ⟨200, "OK", "u", [], Except.error ()⟩
        (some (requestInterceptor "k" none "1.0.0" 10 [] ⟨1, "GET", "u", []⟩).2)).events,
      AbbyEvent.duration ev = 15 - 10) ∧
    timingGet (responseInterceptor 15
        (requestInterceptor "k" none "1.0.0" 10 [] ⟨1, "GET", "u", []⟩).1
        ⟨200, "OK", "u", [], Except.error ()⟩
        (some (requestInterceptor "k" none "1.0.0" 10 [] ⟨1, "GET", "u", []⟩).2)).times 1 =
      none :=
  timing_record_lifecycle "k" "1.0.0" none 10 15 [] ⟨1, "GET", "u", []⟩
    ⟨200, "OK", "u", [], Except.error ()⟩ (by decide)

theorem listenersDelete_emit (ls : List ListenerEntry) (l : ListenerEntry)
    (e : AbbyEvent) :
    emit (listenersDelete ls l) e =
      Except.ok ((listenersDelete ls l).map ListenerEntry.id) ∧
    l.id ∉ (listenersDelete ls l).map ListenerEntry.id ∧
    ∀ m ∈ ls, m.id ≠ l.id → m.id ∈ (listenersDelete ls l).map ListenerEntry.id := by
  refine ⟨emit_eq _ _, ?_, ?_⟩
  · intro hmem
    obtain ⟨m, hm, hid⟩ := List.mem_map.1 hmem
    have hf := (List.mem_filter.1 hm).2
    simp [hid] at hf
  · intro m hm hne
    exact List.mem_map.2 ⟨m, List.mem_filter.2 ⟨hm, by simp [hne]⟩, rfl⟩

/-- C8: a listener removed via off receives no later emitted events of
that kind (its id is absent from the invocation log), while every other
still-registered listener of the kind is still invoked. -/
theorem unsubscription (s : EventListeners) (l : ListenerEntry)
    (ee : ErrorEvent) (re : ResponseEvent) :
    (∃ log, dispatchEvent (abbyOff s EventKind.error l) (AbbyEvent.error ee) =
        Except.ok log ∧
      l.id ∉ log ∧ ∀ m ∈ s.error, m.id ≠ l.id → m.id ∈ log) ∧
    (∃ log, dispatchEvent (abbyOff s EventKind.response l) (AbbyEvent.response re) =
        Except.ok log ∧
      l.id ∉ log ∧ ∀ m ∈ s.response, m.id ≠ l.id → m.id ∈ log) := by
  obtain ⟨h1, h2, h3⟩ := listenersDelete_emit s.error l (AbbyEvent.error ee)
  obtain ⟨g1, g2, g3⟩ := listenersDelete_emit s.response l (AbbyEvent.response re)
  exact ⟨⟨_, h1, h2, h3⟩, ⟨_, g1, g2, g3⟩⟩

/-- Witness for C8: removing listener 2 from a two-listener error set
leaves exactly listener 1 invoked. -/
theorem unsubscription_witness :
    ∃ log, dispatchEvent
        (abbyOff ⟨[⟨1, fun _ => Except.ok ()⟩, ⟨2, fun _ => Except.error "boom"⟩], []⟩
          EventKind.error ⟨2, fun _ => Except.ok ()⟩)
        (AbbyEvent.error ⟨404, "NF", "u", "GET", 1, none, none, none⟩) = Except.ok log ∧
      (2 : Nat) ∉ log ∧
      ∀ m ∈ ([⟨1, fun _ => Except.ok ()⟩,
        ⟨2, fun _ => Except.error "boom"⟩] : List ListenerEntry),
        m.id ≠ 2 → m.id ∈ log :=
  (unsubscription ⟨[⟨1, fun _ => Except.ok ()⟩, ⟨2, fun _ => Except.error "boom"⟩], []⟩
    ⟨2, fun _ => Except.ok ()⟩ ⟨404, "NF", "u", "GET", 1, none, none, none⟩
    ⟨200, "u", "GET", 1, true⟩).1

theorem string_append_left_cancel (s a b : String) (h : s ++ a = s ++ b) : a = b := by
  apply String.ext
  have hd : s.data ++ a.data = s.data ++ b.data := by
    rw [← String.data_append, ← String.data_append, h]
  exact List.append_cancel_left hd

/-- Where the request interceptor leaves each header: the SDK
identification headers are written last, everything else falls through
to the state after the Authorization and config-header writes. -/
theorem requestInterceptor_headers_get (apiKey : String)
    (configHeaders : Option HeaderList) (version : String) (now : Int)
    (times : TimingMap) (req : RequestModel) (name : String) :
    headersGet (requestInterceptor apiKey configHeaders version now times req).2.headers
        name =
      if headerNameEq "X-Abby-Client-Version" name then some version
      else if headerNameEq "X-Abby-Client" name then some "abby-node"
      else headersGet (match configHeaders with
        | none => headersSet req.headers "Authorization" ("Bearer " ++ apiKey)
        | some hs => hs.foldl (fun acc p => headersSet acc p.1 p.2)
            (headersSet req.headers "Authorization" ("Bearer " ++ apiKey))) name := by
  simp only [requestInterceptor]
  rw [headersGet_set, headersGet_set]

/-- C10: a caller-supplied extra header named Authorization replaces the
bearer token written before it, while the SDK identification headers
X-Abby-Client and X-Abby-Client-Version, written after the extras, always
overwrite caller-supplied values of those names. -/
theorem header_injection_precedence (apiKey version : String) (now : Int)
    (times : TimingMap) (req : RequestModel) (l1 l2 : HeaderList) (n v : String)
    (hn : headerNameEq n "Authorization" = true)
    (hl2 : ∀ p ∈ l2, headerNameEq p.1 "Authorization" = false) :
    headersGet (requestInterceptor apiKey (some (l1 ++ (n, v) :: l2)) version now
        times req).2.headers "Authorization" = some v ∧
    ∀ hs : Option HeaderList,
      headersGet (requestInterceptor apiKey hs version now times req).2.headers
        "X-Abby-Client" = some "abby-node" ∧
      headersGet (requestInterceptor apiKey hs version now times req).2.headers
        "X-Abby-Client-Version" = some version := by
  have e1 : headerNameEq "X-Abby-Client-Version" "Authorization" = false := by decide
  have e2 : headerNameEq "X-Abby-Client" "Authorization" = false := by decide
  have e3 : headerNameEq "X-Abby-Client-Version" "X-Abby-Client" = false := by decide
  have e4 : headerNameEq "X-Abby-Client" "X-Abby-Client" = true := by decide
  have e5 : headerNameEq "X-Abby-Client-Version" "X-Abby-Client-Version" = true := by decide
  constructor
  · rw [requestInterceptor_headers_get, e1, e2]
    simp only [if_neg Bool.false_ne_true]
    rw [List.foldl_append, List.foldl_cons]
    rw [headersGet_foldl_skip l2 "Authorization" hl2]
    rw [headersGet_set, hn]
    simp
  · intro hs
    constructor
    · rw [requestInterceptor_headers_get, e3, e4]
      simp
    · rw [requestInterceptor_headers_get, e5]
      simp

/-- Witness for C10: a caller Authorization extra header wins over the
bearer token, and a caller X-Abby-Client extra header is overwritten. -/
theorem header_injection_precedence_witness :
    headersGet (requestInterceptor "keyA" (some ([] ++ ("Authorization", "custom") :: []))
        "1.0.0" 0 [] ⟨1, "GET", "u", []⟩).2.headers "Authorization" = some "custom" ∧
    headersGet (requestInterceptor "keyA" (some [("X-Abby-Client", "spoof")])
        "1.0.0" 0 [] ⟨1, "GET", "u", []⟩).2.headers "X-Abby-Client" = some "abby-node" := by
  have h := header_injection_precedence "keyA" "1.0.0" 0 [] ⟨1, "GET", "u", []⟩ [] []
    "Authorization" "custom" (by decide) (by simp)
  exact ⟨h.1, (h.2 (some [("X-Abby-Client", "spoof")])).1⟩

/-- C1 counterexample: an instance constructed with apiKey keyA but with
the extra header Authorization mapped to keyB's bearer token dispatches
requests whose Authorization header is keyB's token, not keyA's. -/
theorem per_instance_isolation_counterexample :
    ∃ instA, mkAbby (some "keyA")
        { headers := some [("Authorization", "Bearer keyB")] } "1.0.0" =
          Except.ok instA ∧
      headersGet (dispatch instA 0 [] ⟨1, "GET", "u", []⟩).2.headers "Authorization" =
        some "Bearer keyB" ∧
      ("Bearer keyB" : String) ≠ "Bearer keyA" := by
  refine ⟨_, rfl, ?_, by decide⟩
  decide

/-- C1 (amended): two instances constructed with distinct non-empty API
keys, where the first instance's extra headers contain no entry named
Authorization, each register exactly one request interceptor and one
response interceptor on their own fresh client (so constructing more
instances never accumulates registrations), and every request dispatched
through the first carries its own bearer token, which differs from the
second instance's token. -/
theorem per_instance_isolation (kA kB version : String) (cfgA cfgB : AbbyConfig)
    (hkA : kA ≠ "") (hkB : kB ≠ "") (hk : kA ≠ kB)
    (hA : ∀ hs, cfgA.headers = some hs →
      ∀ p ∈ hs, headerNameEq p.1 "Authorization" = false) :
    ∃ instA instB,
      mkAbby (some kA) cfgA version = Except.ok instA ∧
      mkAbby (some kB) cfgB version = Except.ok instB ∧
      instA.instanceClient.requestInterceptors.length = 1 ∧
      instA.instanceClient.responseInterceptors.length = 1 ∧
      instB.instanceClient.requestInterceptors.length = 1 ∧
      instB.instanceClient.responseInterceptors.length = 1 ∧
      (∀ (now : Int) (times : TimingMap) (req : RequestModel),
        headersGet (dispatch instA now times req).2.headers "Authorization" =
          some ("Bearer " ++ kA)) ∧
      ("Bearer " ++ kA) ≠ ("Bearer " ++ kB) := by
  have eauth : headerNameEq "Authorization" "Authorization" = true := by decide
  have e1 : headerNameEq "X-Abby-Client-Version" "Authorization" = false := by decide
  have e2 : headerNameEq "X-Abby-Client" "Authorization" = false := by decide
  refine ⟨{ apiKey := kA, config := resolveConfig cfgA
            instanceClient := initializeClient kA (resolveConfig cfgA) version createClient },
          { apiKey := kB, config := resolveConfig cfgB
            instanceClient := initializeClient kB (resolveConfig cfgB) version createClient },
          by simp [mkAbby, hkA], by simp [mkAbby, hkB], rfl, rfl, rfl, rfl, ?_, ?_⟩
  · intro now times req
    have hdisp : dispatch
        { apiKey := kA, config := resolveConfig cfgA
          instanceClient := initializeClient kA (resolveConfig cfgA) version createClient }
        now times req = requestInterceptor kA cfgA.headers version now times req := rfl
    rw [hdisp, requestInterceptor_headers_get, e1, e2]
    simp only [if_neg Bool.false_ne_true]
    cases hcfg : cfgA.headers with
    | none => rw [headersGet_set, eauth]; simp
    | some hs =>
      rw [headersGet_foldl_skip hs "Authorization" (hA hs hcfg)]
      rw [headersGet_set, eauth]
      simp
  · intro h
    exact hk (string_append_left_cancel "Bearer " kA kB h)

/-- Witness for C1 (amended) at apiKeys keyA and keyB with empty configs. -/
theorem per_instance_isolation_witness :
    ∃ instA instB,
      mkAbby (some "keyA") {} "1.0.0" = Except.ok instA ∧
      mkAbby (some "keyB") {} "1.0.0" = Except.ok instB ∧
      instA.instanceClient.requestInterceptors.length = 1 ∧
      instA.instanceClient.responseInterceptors.length = 1 ∧
      instB.instanceClient.requestInterceptors.length = 1 ∧
      instB.instanceClient.responseInterceptors.length = 1 ∧
      (∀ (now : Int) (times : TimingMap) (req : RequestModel),
        headersGet (dispatch instA now times req).2.headers "Authorization" =
          some ("Bearer " ++ "keyA")) ∧
      ("Bearer " ++ "keyA" : String) ≠ ("Bearer " ++ "keyB") :=
  per_instance_isolation "keyA" "keyB" "1.0.0" {} {} (by decide) (by decide) (by decide)
    (by intro hs hcontra; simp at hcontra)

end AbbyNode
